import Mathlib

/-!
Shallow embedding of the QuObject bucket-claim controller (the retention-aware
reconciler: `Reconcile`, `determineBucketName`, `generateRandomString`,
`handleDeletion`, `deleteBucket`, `ensureBucket`, `newS3Client`,
`upsertSecret`, `upsertConfigMap`).

Modelling choices:
- machine randomness (`crypto/rand.Read`) is an injected byte stream
  `rnd : Nat → Nat`;
- the S3 backend is a `Transport`: a function from backend state and request
  to new state plus response; `honestT` implements standard S3 semantics
  (head/create/list/delete-object/delete-bucket over a set of named buckets),
  while theorems about error-classification branches quantify over arbitrary
  transports;
- claim-store reads/writes are modelled on a `Cluster` record (the one claim
  under reconciliation, the secret list, the config-map list); store writes
  are assumed reliable, and every store or backend interaction is recorded in
  an event trace so that ordering and frame properties are provable.
-/

namespace QuObject

/-- Model of a prefix test on character lists (helper for strings.Contains). -/
def startsWithL : List Char → List Char → Bool
  | _, [] => true
  | [], _ :: _ => false
  | c :: cs, p :: ps => c == p && startsWithL cs ps

/-- Model of Go strings.Contains on character lists. -/
def hasSubL (pat : List Char) : List Char → Bool
  | [] => pat.isEmpty
  | c :: cs => startsWithL (c :: cs) pat || hasSubL pat cs

/-- Model of Go strings.Contains. -/
def strContains (hay pat : String) : Bool := hasSubL pat.toList hay.toList

/-- Go constant: the finalizer token `quobject.io/finalizer`. -/
def finalizerName : String := "quobject.io/finalizer"

/-- Go constant: the controller namespace. -/
def controllerNS : String := "quobject-controller"

/-- Go constant `annotationBucketName`. -/
def bucketNameAnnotKey : String := "quobject.io/bucket-name"

/-- Go constant `annotationRetainPolicy`. -/
def retainPolicyAnnotKey : String := "quobject.io/retain-policy"

/-- Alphabet used by `generateRandomString` (the Go `charset` constant). -/
def charset : String := "abcdefghijklmnopqrstuvwxyz0123456789"

/-- Model of `generateRandomString`: `rnd` is the crypto/rand byte stream;
byte `i` is mapped to `charset[rnd i % len(charset)]`. -/
def generateRandomString (length : Nat) (rnd : Nat → Nat) : String :=
  String.mk ((List.range length).map fun i => charset.toList.getD (rnd i % charset.length) 'a')

/-- QuObjectBucketClaimSpec. -/
structure ClaimSpec where
  bucketName : String
  generateBucketName : String
  storageClassName : String
  retainPolicy : String
  deriving DecidableEq

/-- QuObjectBucketClaimStatus. -/
structure ClaimStatus where
  phase : String
  bucketName : String
  secretRef : String
  configMapRef : String
  deriving DecidableEq

/-- QuObjectBucketClaim: object metadata plus spec and status. -/
structure Claim where
  name : String
  ns : String
  annots : List (String × String)
  finalizers : List String
  deletionTimestampSet : Bool
  spec : ClaimSpec
  status : ClaimStatus
  deriving DecidableEq

/-- Lookup in a Go string map; a missing key yields the zero value "". -/
def lookupD (kvs : List (String × String)) (k : String) : String :=
  match kvs.find? fun p => p.1 == k with
  | some p => p.2
  | none => ""

/-- Assignment in a Go string map. -/
def setKV (kvs : List (String × String)) (k v : String) : List (String × String) :=
  if kvs.any fun p => p.1 == k then
    kvs.map fun p => if p.1 == k then (k, v) else p
  else kvs ++ [(k, v)]

/-- Model of `determineBucketName`: precedence is explicit spec name, then
prior status name, then generated prefix-suffix, then namespace-name-suffix. -/
def determineBucketName (claim : Claim) (rnd : Nat → Nat) : String :=
  if claim.spec.bucketName ≠ "" then claim.spec.bucketName
  else if claim.status.bucketName ≠ "" then claim.status.bucketName
  else if claim.spec.generateBucketName ≠ "" then
    claim.spec.generateBucketName ++ "-" ++ generateRandomString 5 rnd
  else
    claim.ns ++ "-" ++ claim.name ++ "-" ++ generateRandomString 5 rnd

/-- Backend state: the set of buckets, each with its object keys. -/
structure Backend where
  buckets : List (String × List String)
  deriving DecidableEq

/-- Does a bucket with this name exist in the backend? -/
def bucketExists (be : Backend) (b : String) : Bool :=
  be.buckets.any fun p => p.1 == b

/-- Requests the reconciler sends to the S3 backend. -/
inductive S3Req where
  | head (b : String)
  | create (b r : String)
  | listV2 (b : String)
  | delObj (b k : String)
  | delBkt (b : String)
  deriving DecidableEq

/-- Response of one S3 call: updated backend state, error (if any), and the
listed keys (for listV2). -/
structure S3Out where
  be : Backend
  err : Option String
  keys : List String
  deriving DecidableEq

/-- A transport decides how the backend answers each request. -/
def Transport : Type := Backend → S3Req → S3Out

/-- Standard S3 semantics: head succeeds iff the bucket exists, create fails
on an existing bucket with an already-owned error, listing/deleting in an
absent bucket reports NoSuchBucket, deleting a non-empty bucket fails. -/
def honestT : Transport := fun be q =>
  match q with
  | .head b =>
      ⟨be, if bucketExists be b then none else some "NotFound: 404 head bucket", []⟩
  | .create b _ =>
      if bucketExists be b then
        ⟨be, some "BucketAlreadyOwnedByYou: your previous request succeeded", []⟩
      else ⟨⟨(b, []) :: be.buckets⟩, none, []⟩
  | .listV2 b =>
      match be.buckets.find? fun p => p.1 == b with
      | none => ⟨be, some "NoSuchBucket: the specified bucket does not exist", []⟩
      | some p => ⟨be, none, p.2⟩
  | .delObj b k =>
      match be.buckets.find? fun p => p.1 == b with
      | none => ⟨be, some "NoSuchBucket: the specified bucket does not exist", []⟩
      | some _ =>
          ⟨⟨be.buckets.map fun p => if p.1 == b then (p.1, p.2.filter fun x => !(x == k)) else p⟩,
            none, []⟩
  | .delBkt b =>
      match be.buckets.find? fun p => p.1 == b with
      | none => ⟨be, some "NoSuchBucket: the specified bucket does not exist", []⟩
      | some p =>
          if p.2.isEmpty then ⟨⟨be.buckets.filter fun x => !(x.1 == b)⟩, none, []⟩
          else ⟨be, some "BucketNotEmpty: the bucket you tried to delete is not empty", []⟩

/-- The create-error class `ensureBucket` treats as success
(BucketAlreadyOwnedByYou / BucketAlreadyExists, matched on the lowered text). -/
def alreadyOwnedErr (m : String) : Bool :=
  strContains (String.map Char.toLower m) "bucketalreadyownedbyyou" ||
    strContains (String.map Char.toLower m) "bucketalreadyexists"

/-- Model of `ensureBucket`: head first; on head failure issue create and
swallow already-exists-class create errors. Returns the backend state, the
error result, and the requests issued. -/
def ensureBucket (t : Transport) (be : Backend) (b r : String) :
    Backend × Option String × List S3Req :=
  match (t be (.head b)).err with
  | none => ((t be (.head b)).be, none, [.head b])
  | some _ =>
    match (t (t be (.head b)).be (.create b r)).err with
    | none => ((t (t be (.head b)).be (.create b r)).be, none, [.head b, .create b r])
    | some m =>
        if alreadyOwnedErr m then
          ((t (t be (.head b)).be (.create b r)).be, none, [.head b, .create b r])
        else
          ((t (t be (.head b)).be (.create b r)).be, some m, [.head b, .create b r])

/-- The per-object deletion loop inside `deleteBucket`: delete each listed
key, aborting on the first failure. -/
def deleteObjectsLoop (t : Transport) (be : Backend) (b : String) :
    List String → Backend × Option String × List S3Req
  | [] => (be, none, [])
  | k :: ks =>
    match (t be (.delObj b k)).err with
    | some e =>
        ((t be (.delObj b k)).be, some ("failed to delete object " ++ k ++ ": " ++ e),
          [.delObj b k])
    | none =>
        ((deleteObjectsLoop t (t be (.delObj b k)).be b ks).1,
          (deleteObjectsLoop t (t be (.delObj b k)).be b ks).2.1,
          .delObj b k :: (deleteObjectsLoop t (t be (.delObj b k)).be b ks).2.2)

/-- Model of `deleteBucket`: list all object keys, delete each, then delete
the bucket; a NoSuchBucket error from the final delete call is swallowed. -/
def deleteBucket (t : Transport) (be : Backend) (b : String) :
    Backend × Option String × List S3Req :=
  match (t be (.listV2 b)).err with
  | some e => ((t be (.listV2 b)).be, some ("failed to list objects: " ++ e), [.listV2 b])
  | none =>
    match (deleteObjectsLoop t (t be (.listV2 b)).be b (t be (.listV2 b)).keys).2.1 with
    | some e =>
        ((deleteObjectsLoop t (t be (.listV2 b)).be b (t be (.listV2 b)).keys).1, some e,
          .listV2 b :: (deleteObjectsLoop t (t be (.listV2 b)).be b (t be (.listV2 b)).keys).2.2)
    | none =>
      match (t (deleteObjectsLoop t (t be (.listV2 b)).be b (t be (.listV2 b)).keys).1 (.delBkt b)).err with
      | none =>
          ((t (deleteObjectsLoop t (t be (.listV2 b)).be b (t be (.listV2 b)).keys).1 (.delBkt b)).be,
            none,
            .listV2 b :: (deleteObjectsLoop t (t be (.listV2 b)).be b (t be (.listV2 b)).keys).2.2
              ++ [.delBkt b])
      | some e =>
          if strContains (String.map Char.toLower e) "nosuchbucket" then
            ((t (deleteObjectsLoop t (t be (.listV2 b)).be b (t be (.listV2 b)).keys).1 (.delBkt b)).be,
              none,
              .listV2 b :: (deleteObjectsLoop t (t be (.listV2 b)).be b (t be (.listV2 b)).keys).2.2
                ++ [.delBkt b])
          else
            ((t (deleteObjectsLoop t (t be (.listV2 b)).be b (t be (.listV2 b)).keys).1 (.delBkt b)).be,
              some ("failed to delete bucket: " ++ e),
              .listV2 b :: (deleteObjectsLoop t (t be (.listV2 b)).be b (t be (.listV2 b)).keys).2.2
                ++ [.delBkt b])

/-- A secret in the cluster store. -/
structure Secret where
  name : String
  ns : String
  data : List (String × String)
  stype : String
  deriving DecidableEq

/-- A config map in the cluster store. -/
structure ConfigMap where
  name : String
  ns : String
  data : List (String × String)
  deriving DecidableEq

/-- Model of the helper `upsertSecret`: create when absent, otherwise
overwrite the payload (string data and type) of the existing object. -/
def upsertSecret (ss : List Secret) (s : Secret) : List Secret :=
  if ss.any fun x => x.name == s.name && x.ns == s.ns then
    ss.map fun x =>
      if x.name == s.name && x.ns == s.ns then { x with data := s.data, stype := s.stype } else x
  else s :: ss

/-- Model of the helper `upsertConfigMap`: create when absent, otherwise
overwrite the data of the existing object. -/
def upsertConfigMap (ms : List ConfigMap) (m : ConfigMap) : List ConfigMap :=
  if ms.any fun x => x.name == m.name && x.ns == m.ns then
    ms.map fun x => if x.name == m.name && x.ns == m.ns then { x with data := m.data } else x
  else m :: ms

/-- The S3 client configuration `newS3Client` builds: the Go function
hard-codes `InsecureSkipVerify: false` in the TLS config and never reads its
`useSSL` parameter. -/
structure S3ClientCfg where
  endpoint : String
  region : String
  accessKey : String
  secretKey : String
  insecureSkipVerifyFlag : Bool
  usePathStyle : Bool
  deriving DecidableEq

/-- Model of `newS3Client` (the configuration it produces; the
LoadDefaultConfig failure mode is modelled by `Cluster.clientCreateErr`). -/
def newS3Client (endpoint region accessKey secretKey : String)
    (useSSL forcePath : Bool) : S3ClientCfg :=
  { endpoint := endpoint, region := region, accessKey := accessKey, secretKey := secretKey,
    insecureSkipVerifyFlag := false, usePathStyle := forcePath }

/-- The client configuration the reconcile pass builds from the credential
secret data: `newS3Client(endpoint, region, accessKey, secretKey, true, true)`. -/
def reconcileClientCfg (d : List (String × String)) : S3ClientCfg :=
  newS3Client (lookupD d "endpoint") (lookupD d "region")
    (lookupD d "accessKey") (lookupD d "secretKey") true true

/-- The cluster-store state a reconcile pass acts on: the claim under
reconciliation, the secrets, the config maps, the backend, and whether
client construction (LoadDefaultConfig) fails in this environment. -/
structure Cluster where
  claim : Option Claim
  secrets : List Secret
  configMaps : List ConfigMap
  backend : Backend
  clientCreateErr : Option String
  deriving DecidableEq

/-- Store and backend interactions a pass performs, in order. -/
inductive Ev where
  | finalizerAddUpdate
  | credFetch
  | annotUpdate
  | s3 (q : S3Req)
  | writeSecret (n : String)
  | writeConfigMap (n : String)
  | statusUpdate (phase : String)
  | finalizerRemoveUpdate
  deriving DecidableEq

/-- Result of a pass: final cluster, returned error, event trace. -/
structure RecOut where
  cluster : Cluster
  res : Option String
  trace : List Ev
  deriving DecidableEq

/-- The credentials secret `s3-credentials` in the controller namespace. -/
def credSecretOf (c : Cluster) : Option Secret :=
  c.secrets.find? fun s => s.name == "s3-credentials" && s.ns == controllerNS

/-- ContainsFinalizer / AddFinalizer / RemoveFinalizer. -/
def addFin (cl : Claim) : Claim :=
  { cl with finalizers := cl.finalizers ++ [finalizerName] }

/-- RemoveFinalizer drops every occurrence of the token. -/
def removeFin (cl : Claim) : Claim :=
  { cl with finalizers := cl.finalizers.filter fun f => !(f == finalizerName) }

/-- Set the status phase (claim.Status.Phase = p). -/
def setPhase (cl : Claim) (p : String) : Claim :=
  { cl with status := { cl.status with phase := p } }

/-- Stamp the bucket-name and retain-policy annotations on the claim. -/
def withBucketAnnots (cl : Claim) (bn : String) : Claim :=
  { cl with annots := setKV (setKV cl.annots bucketNameAnnotKey bn) retainPolicyAnnotKey cl.spec.retainPolicy }

/-- The status written on success: phase Bound, the bucket name, and the two
artifact references. -/
def boundStatus (cl : Claim) (bn : String) : Claim :=
  { cl with status :=
      ⟨"Bound", bn, cl.name ++ "-bucket-secret", cl.name ++ "-bucket-config"⟩ }

/-- The credentials secret the pass builds for the claim. -/
def mkBucketSecret (cl : Claim) (bn ak sk ep rg : String) : Secret :=
  ⟨cl.name ++ "-bucket-secret", cl.ns,
    [("AWS_ACCESS_KEY_ID", ak), ("AWS_SECRET_ACCESS_KEY", sk), ("BUCKET_NAME", bn),
      ("BUCKET_HOST", ep), ("BUCKET_REGION", rg)], "Opaque"⟩

/-- The configuration map the pass builds for the claim. -/
def mkBucketConfig (cl : Claim) (bn ep rg : String) : ConfigMap :=
  ⟨cl.name ++ "-bucket-config", cl.ns,
    [("BUCKET_NAME", bn), ("BUCKET_HOST", ep), ("BUCKET_REGION", rg), ("BUCKET_PORT", "443")]⟩

/-- The steady-state body of `Reconcile` after the deletion branch and the
finalizer step: credential fetch, client construction, name resolution,
annotation write, bucket ensure, both artifact upserts, status write. -/
def reconcileMain (t : Transport) (c : Cluster) (cl : Claim) (rnd : Nat → Nat) : RecOut :=
  match credSecretOf c with
  | none =>
      ⟨{ c with claim := some (setPhase cl "Error") }, some "failed to get S3 credentials secret",
        [Ev.credFetch, Ev.statusUpdate "Error"]⟩
  | some cred =>
    match c.clientCreateErr with
    | some e =>
        ⟨{ c with claim := some (setPhase cl "Error") }, some e,
          [Ev.credFetch, Ev.statusUpdate "Error"]⟩
    | none =>
      match (ensureBucket t c.backend (determineBucketName cl rnd) (lookupD cred.data "region")).2.1 with
      | some e =>
          ⟨{ c with
              claim := some (setPhase (withBucketAnnots cl (determineBucketName cl rnd)) "Error"),
              backend := (ensureBucket t c.backend (determineBucketName cl rnd) (lookupD cred.data "region")).1 },
            some e,
            [Ev.credFetch, Ev.annotUpdate]
              ++ (ensureBucket t c.backend (determineBucketName cl rnd) (lookupD cred.data "region")).2.2.map Ev.s3
              ++ [Ev.statusUpdate "Error"]⟩
      | none =>
          ⟨{ c with
              claim := some (boundStatus (withBucketAnnots cl (determineBucketName cl rnd)) (determineBucketName cl rnd)),
              backend := (ensureBucket t c.backend (determineBucketName cl rnd) (lookupD cred.data "region")).1,
              secrets := upsertSecret c.secrets
                (mkBucketSecret cl (determineBucketName cl rnd)
                  (lookupD cred.data "accessKey") (lookupD cred.data "secretKey")
                  (lookupD cred.data "endpoint") (lookupD cred.data "region")),
              configMaps := upsertConfigMap c.configMaps
                (mkBucketConfig cl (determineBucketName cl rnd)
                  (lookupD cred.data "endpoint") (lookupD cred.data "region")) },
            none,
            [Ev.credFetch, Ev.annotUpdate]
              ++ (ensureBucket t c.backend (determineBucketName cl rnd) (lookupD cred.data "region")).2.2.map Ev.s3
              ++ [Ev.writeSecret (cl.name ++ "-bucket-secret"),
                  Ev.writeConfigMap (cl.name ++ "-bucket-config"),
                  Ev.statusUpdate "Bound"]⟩

/-- The bucket name the deletion path recovers: the bucket-name annotation,
falling back to status when the annotation is empty. -/
def recoveredBucketName (cl : Claim) : String :=
  if lookupD cl.annots bucketNameAnnotKey = "" then cl.status.bucketName
  else lookupD cl.annots bucketNameAnnotKey

/-- The cleanup block of `handleDeletion`: when policy is Delete and a name
is recoverable, fetch credentials, build a client and attempt the bucket
deletion, swallowing every failure. -/
def deletionCleanup (t : Transport) (c : Cluster) (cl : Claim) : Cluster × List Ev :=
  if cl.spec.retainPolicy = "Delete" then
    if recoveredBucketName cl = "" then (c, [])
    else
      match credSecretOf c with
      | none => (c, [Ev.credFetch])
      | some _ =>
        match c.clientCreateErr with
        | some _ => (c, [Ev.credFetch])
        | none =>
            ({ c with backend := (deleteBucket t c.backend (recoveredBucketName cl)).1 },
              Ev.credFetch :: (deleteBucket t c.backend (recoveredBucketName cl)).2.2.map Ev.s3)
  else (c, [])

/-- Model of `handleDeletion`: when the finalizer is present, run the
retention-gated cleanup, then remove the finalizer and persist; otherwise do
nothing. -/
def handleDeletion (t : Transport) (c : Cluster) (cl : Claim) : RecOut :=
  if finalizerName ∈ cl.finalizers then
    ⟨{ (deletionCleanup t c cl).1 with claim := some (removeFin cl) }, none,
      (deletionCleanup t c cl).2 ++ [Ev.finalizerRemoveUpdate]⟩
  else ⟨c, none, []⟩

/-- Model of `Reconcile`: fetch the claim (a not-found get ends the pass with
success), branch to deletion handling, attach the finalizer when missing and
persist before anything else, then run the steady-state body. -/
def reconcile (t : Transport) (c : Cluster) (rnd : Nat → Nat) : RecOut :=
  match c.claim with
  | none => ⟨c, none, []⟩
  | some cl =>
    if cl.deletionTimestampSet then handleDeletion t c cl
    else if finalizerName ∈ cl.finalizers then reconcileMain t c cl rnd
    else
      ⟨(reconcileMain t { c with claim := some (addFin cl) } (addFin cl) rnd).cluster,
        (reconcileMain t { c with claim := some (addFin cl) } (addFin cl) rnd).res,
        Ev.finalizerAddUpdate
          :: (reconcileMain t { c with claim := some (addFin cl) } (addFin cl) rnd).trace⟩

/-! Supporting lemmas. -/

/-- Every in-range index of the charset yields a charset character. -/
lemma charMem : ∀ n, n < charset.length → charset.toList.getD n 'a' ∈ charset.toList := by
  decide

/-- The generated suffix has the requested length. -/
lemma generateRandomString_length (n : Nat) (rnd : Nat → Nat) :
    (generateRandomString n rnd).length = n := by
  have h : (generateRandomString n rnd).length
      = ((List.range n).map fun i => charset.toList.getD (rnd i % charset.length) 'a').length := rfl
  rw [h, List.length_map, List.length_range]

/-- Every character of the generated suffix is drawn from the charset. -/
lemma generateRandomString_mem (n : Nat) (rnd : Nat → Nat) :
    ∀ ch ∈ (generateRandomString n rnd).toList, ch ∈ charset.toList := by
  intro ch hch
  simp only [generateRandomString, String.toList, List.mem_map, List.mem_range] at hch
  obtain ⟨i, _, rfl⟩ := hch
  exact charMem _ (Nat.mod_lt _ (by decide))

/-- A string of the shape a ++ "-" ++ b is never empty. -/
lemma append_dash_ne_empty (a b : String) : a ++ "-" ++ b ≠ "" := by
  intro h
  have h' := congrArg String.length h
  rw [String.length_append, String.length_append] at h'
  have h1 : "-".length = 1 := rfl
  have h2 : "".length = 0 := rfl
  omega

/-- The resolved bucket name is never the empty string. -/
lemma determineBucketName_ne_empty (cl : Claim) (rnd : Nat → Nat) :
    determineBucketName cl rnd ≠ "" := by
  unfold determineBucketName
  split
  · next h => exact h
  · split
    · next h => exact h
    · split
      · exact append_dash_ne_empty _ _
      · exact append_dash_ne_empty _ _

/-- A success result of the steady-state body implies the credentials secret
was found, the client was built, and the bucket-ensure step succeeded. -/
lemma reconcileMain_res_none (t : Transport) (c : Cluster) (cl : Claim) (rnd : Nat → Nat)
    (h : (reconcileMain t c cl rnd).res = none) :
    ∃ cred, credSecretOf c = some cred ∧ c.clientCreateErr = none ∧
      (ensureBucket t c.backend (determineBucketName cl rnd) (lookupD cred.data "region")).2.1
        = none := by
  unfold reconcileMain at h
  split at h
  · simp at h
  · next cred hc =>
    split at h
    · simp at h
    · next hcc =>
      split at h
      · simp at h
      · next he => exact ⟨cred, hc, hcc, he⟩

/-- Explicit shape of a successful steady-state body run. -/
lemma reconcileMain_success_eq (t : Transport) (c : Cluster) (cl : Claim) (rnd : Nat → Nat)
    (cred : Secret) (hc : credSecretOf c = some cred) (hcc : c.clientCreateErr = none)
    (he : (ensureBucket t c.backend (determineBucketName cl rnd)
      (lookupD cred.data "region")).2.1 = none) :
    reconcileMain t c cl rnd =
      ⟨{ c with
          claim := some (boundStatus (withBucketAnnots cl (determineBucketName cl rnd))
            (determineBucketName cl rnd)),
          backend := (ensureBucket t c.backend (determineBucketName cl rnd)
            (lookupD cred.data "region")).1,
          secrets := upsertSecret c.secrets
            (mkBucketSecret cl (determineBucketName cl rnd)
              (lookupD cred.data "accessKey") (lookupD cred.data "secretKey")
              (lookupD cred.data "endpoint") (lookupD cred.data "region")),
          configMaps := upsertConfigMap c.configMaps
            (mkBucketConfig cl (determineBucketName cl rnd)
              (lookupD cred.data "endpoint") (lookupD cred.data "region")) },
        none,
        [Ev.credFetch, Ev.annotUpdate]
          ++ (ensureBucket t c.backend (determineBucketName cl rnd)
              (lookupD cred.data "region")).2.2.map Ev.s3
          ++ [Ev.writeSecret (cl.name ++ "-bucket-secret"),
              Ev.writeConfigMap (cl.name ++ "-bucket-config"),
              Ev.statusUpdate "Bound"]⟩ := by
  unfold reconcileMain
  split
  · next heq => rw [hc] at heq; simp at heq
  · next cred' heq =>
    rw [hc] at heq
    injection heq with heq'
    subst heq'
    split
    · next e heq2 => rw [hcc] at heq2; simp at heq2
    · split
      · next e heq3 => rw [he] at heq3; simp at heq3
      · rfl

/-- Attaching the finalizer does not change the resolved bucket name. -/
lemma determineBucketName_addFin (cl : Claim) (rnd : Nat → Nat) :
    determineBucketName (addFin cl) rnd = determineBucketName cl rnd := rfl

/-- Attaching the finalizer does not change the built secret. -/
lemma mkBucketSecret_addFin (cl : Claim) (bn ak sk ep rg : String) :
    mkBucketSecret (addFin cl) bn ak sk ep rg = mkBucketSecret cl bn ak sk ep rg := rfl

/-- Attaching the finalizer does not change the built config map. -/
lemma mkBucketConfig_addFin (cl : Claim) (bn ep rg : String) :
    mkBucketConfig (addFin cl) bn ep rg = mkBucketConfig cl bn ep rg := rfl

/-- Attaching the finalizer does not change the claim name. -/
lemma addFin_name (cl : Claim) : (addFin cl).name = cl.name := rfl

/-- A pass on a live (non-deleting) claim is the steady-state body, preceded
by the finalizer attach-and-persist step when the token is missing. -/
lemma reconcile_live (t : Transport) (c : Cluster) (rnd : Nat → Nat) (cl : Claim)
    (hcl : c.claim = some cl) (hdel : cl.deletionTimestampSet = false) :
    reconcile t c rnd =
      if finalizerName ∈ cl.finalizers then reconcileMain t c cl rnd
      else
        ⟨(reconcileMain t { c with claim := some (addFin cl) } (addFin cl) rnd).cluster,
          (reconcileMain t { c with claim := some (addFin cl) } (addFin cl) rnd).res,
          Ev.finalizerAddUpdate
            :: (reconcileMain t { c with claim := some (addFin cl) } (addFin cl) rnd).trace⟩ := by
  unfold reconcile
  split
  · next heq => rw [hcl] at heq; simp at heq
  · next cl' heq =>
    rw [hcl] at heq
    injection heq with heq'
    subst heq'
    simp only [hdel, Bool.false_eq_true, if_false]

/-- Explicit shape of a successful full reconcile pass on a live claim. -/
lemma reconcile_success (t : Transport) (c : Cluster) (rnd : Nat → Nat) (cl : Claim)
    (hcl : c.claim = some cl) (hdel : cl.deletionTimestampSet = false)
    (h : (reconcile t c rnd).res = none) :
    ∃ cred, credSecretOf c = some cred ∧ c.clientCreateErr = none ∧
      (ensureBucket t c.backend (determineBucketName cl rnd) (lookupD cred.data "region")).2.1
        = none ∧
      reconcile t c rnd =
        ⟨{ c with
            claim := some (boundStatus
              (withBucketAnnots (if finalizerName ∈ cl.finalizers then cl else addFin cl)
                (determineBucketName cl rnd))
              (determineBucketName cl rnd)),
            backend := (ensureBucket t c.backend (determineBucketName cl rnd)
              (lookupD cred.data "region")).1,
            secrets := upsertSecret c.secrets
              (mkBucketSecret cl (determineBucketName cl rnd)
                (lookupD cred.data "accessKey") (lookupD cred.data "secretKey")
                (lookupD cred.data "endpoint") (lookupD cred.data "region")),
            configMaps := upsertConfigMap c.configMaps
              (mkBucketConfig cl (determineBucketName cl rnd)
                (lookupD cred.data "endpoint") (lookupD cred.data "region")) },
          none,
          (if finalizerName ∈ cl.finalizers then ([] : List Ev) else [Ev.finalizerAddUpdate])
            ++ [Ev.credFetch, Ev.annotUpdate]
            ++ (ensureBucket t c.backend (determineBucketName cl rnd)
                (lookupD cred.data "region")).2.2.map Ev.s3
            ++ [Ev.writeSecret (cl.name ++ "-bucket-secret"),
                Ev.writeConfigMap (cl.name ++ "-bucket-config"),
                Ev.statusUpdate "Bound"]⟩ := by
  rw [reconcile_live t c rnd cl hcl hdel] at h ⊢
  by_cases hf : finalizerName ∈ cl.finalizers
  · rw [if_pos hf] at h ⊢
    obtain ⟨cred, hc, hcc, he⟩ := reconcileMain_res_none t c cl rnd h
    refine ⟨cred, hc, hcc, he, ?_⟩
    rw [reconcileMain_success_eq t c cl rnd cred hc hcc he]
    simp [hf]
  · rw [if_neg hf] at h ⊢
    have h' : (reconcileMain t { c with claim := some (addFin cl) } (addFin cl) rnd).res
        = none := h
    obtain ⟨cred, hc, hcc, he⟩ :=
      reconcileMain_res_none t { c with claim := some (addFin cl) } (addFin cl) rnd h'
    refine ⟨cred, hc, hcc, he, ?_⟩
    rw [reconcileMain_success_eq t { c with claim := some (addFin cl) } (addFin cl) rnd cred
      hc hcc he]
    simp [hf, determineBucketName_addFin, mkBucketSecret_addFin, mkBucketConfig_addFin,
      addFin_name]

/-- After an upsert the store contains an object with the desired name,
namespace and payload. -/
lemma upsertSecret_mem (ss : List Secret) (s : Secret) :
    ∃ x ∈ upsertSecret ss s, x.name = s.name ∧ x.ns = s.ns ∧ x.data = s.data := by
  unfold upsertSecret
  split
  · next hany =>
    obtain ⟨x, hx, hcond⟩ := List.any_eq_true.mp hany
    refine ⟨if x.name == s.name && x.ns == s.ns then
        { x with data := s.data, stype := s.stype } else x, List.mem_map_of_mem _ hx, ?_⟩
    rw [if_pos hcond]
    obtain ⟨h1, h2⟩ := Bool.and_eq_true_iff.mp hcond
    exact ⟨by simpa using h1, by simpa using h2, rfl⟩
  · exact ⟨s, List.mem_cons_self s ss, rfl, rfl, rfl⟩

/-- After an upsert the store contains a config map with the desired name,
namespace and payload. -/
lemma upsertConfigMap_mem (ms : List ConfigMap) (m : ConfigMap) :
    ∃ x ∈ upsertConfigMap ms m, x.name = m.name ∧ x.ns = m.ns ∧ x.data = m.data := by
  unfold upsertConfigMap
  split
  · next hany =>
    obtain ⟨x, hx, hcond⟩ := List.any_eq_true.mp hany
    refine ⟨if x.name == m.name && x.ns == m.ns then { x with data := m.data } else x,
      List.mem_map_of_mem _ hx, ?_⟩
    rw [if_pos hcond]
    obtain ⟨h1, h2⟩ := Bool.and_eq_true_iff.mp hcond
    exact ⟨by simpa using h1, by simpa using h2, rfl⟩
  · exact ⟨m, List.mem_cons_self m ms, rfl, rfl, rfl⟩

/-- Precedence rule 1: an explicit spec name wins. -/
lemma determineBucketName_of_spec (cl : Claim) (rnd : Nat → Nat)
    (h : cl.spec.bucketName ≠ "") : determineBucketName cl rnd = cl.spec.bucketName := by
  unfold determineBucketName
  rw [if_pos h]

/-- Precedence rule 2: a prior status name is reused. -/
lemma determineBucketName_of_status (cl : Claim) (rnd : Nat → Nat)
    (h1 : cl.spec.bucketName = "") (h2 : cl.status.bucketName ≠ "") :
    determineBucketName cl rnd = cl.status.bucketName := by
  unfold determineBucketName
  rw [if_neg (by simpa using h1), if_pos h2]

/-- Precedence rule 3: generate from the prefix. -/
lemma determineBucketName_of_gen (cl : Claim) (rnd : Nat → Nat)
    (h1 : cl.spec.bucketName = "") (h2 : cl.status.bucketName = "")
    (h3 : cl.spec.generateBucketName ≠ "") :
    determineBucketName cl rnd = cl.spec.generateBucketName ++ "-" ++ generateRandomString 5 rnd := by
  unfold determineBucketName
  rw [if_neg (by simpa using h1), if_neg (by simpa using h2), if_pos h3]

/-- Precedence rule 4: the namespace-name fallback. -/
lemma determineBucketName_fallback (cl : Claim) (rnd : Nat → Nat)
    (h1 : cl.spec.bucketName = "") (h2 : cl.status.bucketName = "")
    (h3 : cl.spec.generateBucketName = "") :
    determineBucketName cl rnd = cl.ns ++ "-" ++ cl.name ++ "-" ++ generateRandomString 5 rnd := by
  unfold determineBucketName
  rw [if_neg (by simpa using h1), if_neg (by simpa using h2), if_neg (by simpa using h3)]

/-! Claim theorems. -/

/-- Claim C2: the name resolver evaluates exactly the four-step precedence: an
explicit spec name verbatim; else a prior status name verbatim; else
prefix-dash-suffix; else namespace-name-suffix — where the suffix is the
5-character string drawn from the 36-symbol lowercase-alphanumeric charset. -/
theorem determineBucketName_precedence :
    (∀ (cl : Claim) (rnd : Nat → Nat), cl.spec.bucketName ≠ "" →
      determineBucketName cl rnd = cl.spec.bucketName) ∧
    (∀ (cl : Claim) (rnd : Nat → Nat), cl.spec.bucketName = "" →
      cl.status.bucketName ≠ "" → determineBucketName cl rnd = cl.status.bucketName) ∧
    (∀ (cl : Claim) (rnd : Nat → Nat), cl.spec.bucketName = "" →
      cl.status.bucketName = "" → cl.spec.generateBucketName ≠ "" →
      determineBucketName cl rnd
        = cl.spec.generateBucketName ++ "-" ++ generateRandomString 5 rnd) ∧
    (∀ (cl : Claim) (rnd : Nat → Nat), cl.spec.bucketName = "" →
      cl.status.bucketName = "" → cl.spec.generateBucketName = "" →
      determineBucketName cl rnd = cl.ns ++ "-" ++ cl.name ++ "-" ++ generateRandomString 5 rnd) ∧
    (∀ rnd : Nat → Nat, (generateRandomString 5 rnd).length = 5 ∧
      ∀ ch ∈ (generateRandomString 5 rnd).toList, ch ∈ charset.toList) ∧
    charset.length = 36 ∧ (∀ ch ∈ charset.toList, (ch.isLower || ch.isDigit) = true) := by
  refine ⟨?_, ?_, ?_, ?_, ?_, rfl, by decide⟩
  · exact determineBucketName_of_spec
  · exact determineBucketName_of_status
  · exact determineBucketName_of_gen
  · exact determineBucketName_fallback
  · intro rnd
    exact ⟨generateRandomString_length 5 rnd, generateRandomString_mem 5 rnd⟩

/-- Concrete claim used by witnesses: the spec scenario
`{name: a, namespace: ns, spec: {generateBucketName: app}}`. -/
def claimGen : Claim :=
  ⟨"a", "ns", [], [], false, ⟨"", "app", "standard", "Delete"⟩, ⟨"", "", "", ""⟩⟩

/-- Deterministic stand-in for the random byte stream. -/
def rnd0 : Nat → Nat := fun _ => 0

/-- Witness for C2: on the scenario claim the third precedence rule fires and
the zero byte stream yields the suffix aaaaa. -/
theorem determineBucketName_precedence_witness :
    claimGen.spec.bucketName = "" ∧ claimGen.spec.generateBucketName ≠ "" ∧
    determineBucketName claimGen rnd0 = "app-aaaaa" := by
  refine ⟨rfl, by decide, ?_⟩
  rw [determineBucketName_precedence.2.2.1 claimGen rnd0 rfl rfl (by decide)]
  rfl

/-- Claim C1: a reconcile pass on a non-deleting claim that completes without
error sets phase Bound, records the resolved bucket name in the status, and
has upserted a credentials artifact named claimName-bucket-secret with
exactly the five credential keys and a configuration artifact named
claimName-bucket-config with exactly the four configuration keys, BUCKET_NAME
in both equal to the resolved name. -/
theorem reconcile_bound_artifacts (t : Transport) (c : Cluster) (rnd : Nat → Nat) (cl : Claim)
    (hcl : c.claim = some cl) (hdel : cl.deletionTimestampSet = false)
    (hok : (reconcile t c rnd).res = none) :
    ∃ cl', (reconcile t c rnd).cluster.claim = some cl' ∧
      cl'.status.phase = "Bound" ∧
      cl'.status.bucketName = determineBucketName cl rnd ∧
      (∃ s ∈ (reconcile t c rnd).cluster.secrets,
        s.name = cl.name ++ "-bucket-secret" ∧ s.ns = cl.ns ∧
        s.data.map Prod.fst = ["AWS_ACCESS_KEY_ID", "AWS_SECRET_ACCESS_KEY", "BUCKET_NAME",
          "BUCKET_HOST", "BUCKET_REGION"] ∧
        lookupD s.data "BUCKET_NAME" = determineBucketName cl rnd) ∧
      (∃ m ∈ (reconcile t c rnd).cluster.configMaps,
        m.name = cl.name ++ "-bucket-config" ∧ m.ns = cl.ns ∧
        m.data.map Prod.fst = ["BUCKET_NAME", "BUCKET_HOST", "BUCKET_REGION", "BUCKET_PORT"] ∧
        lookupD m.data "BUCKET_NAME" = determineBucketName cl rnd) := by
  obtain ⟨cred, hc, hcc, he, heq⟩ := reconcile_success t c rnd cl hcl hdel hok
  rw [heq]
  refine ⟨_, rfl, rfl, rfl, ?_, ?_⟩
  · obtain ⟨s, hs, hn, hns, hd⟩ := upsertSecret_mem c.secrets
      (mkBucketSecret cl (determineBucketName cl rnd) (lookupD cred.data "accessKey")
        (lookupD cred.data "secretKey") (lookupD cred.data "endpoint")
        (lookupD cred.data "region"))
    exact ⟨s, hs, hn, hns, by rw [hd]; rfl, by rw [hd]; rfl⟩
  · obtain ⟨m, hm, hn, hns, hd⟩ := upsertConfigMap_mem c.configMaps
      (mkBucketConfig cl (determineBucketName cl rnd) (lookupD cred.data "endpoint")
        (lookupD cred.data "region"))
    exact ⟨m, hm, hn, hns, by rw [hd]; rfl, by rw [hd]; rfl⟩

/-- Credentials secret used by witnesses. -/
def credSec0 : Secret :=
  ⟨"s3-credentials", "quobject-controller",
    [("endpoint", "minio.local"), ("region", "us-east-1"), ("accessKey", "AK"),
      ("secretKey", "SK")], "Opaque"⟩

/-- Cluster used by witnesses: the scenario claim, the credentials secret, an
empty backend, and a working client environment. -/
def cluster0 : Cluster := ⟨some claimGen, [credSec0], [], ⟨[]⟩, none⟩

/-- Witness for C1 at the scenario claim against the honest backend. -/
theorem reconcile_bound_artifacts_witness :
    ∃ cl', (reconcile honestT cluster0 rnd0).cluster.claim = some cl' ∧
      cl'.status.phase = "Bound" ∧
      cl'.status.bucketName = determineBucketName claimGen rnd0 ∧
      (∃ s ∈ (reconcile honestT cluster0 rnd0).cluster.secrets,
        s.name = claimGen.name ++ "-bucket-secret" ∧ s.ns = claimGen.ns ∧
        s.data.map Prod.fst = ["AWS_ACCESS_KEY_ID", "AWS_SECRET_ACCESS_KEY", "BUCKET_NAME",
          "BUCKET_HOST", "BUCKET_REGION"] ∧
        lookupD s.data "BUCKET_NAME" = determineBucketName claimGen rnd0) ∧
      (∃ m ∈ (reconcile honestT cluster0 rnd0).cluster.configMaps,
        m.name = claimGen.name ++ "-bucket-config" ∧ m.ns = claimGen.ns ∧
        m.data.map Prod.fst = ["BUCKET_NAME", "BUCKET_HOST", "BUCKET_REGION", "BUCKET_PORT"] ∧
        lookupD m.data "BUCKET_NAME" = determineBucketName claimGen rnd0) :=
  reconcile_bound_artifacts honestT cluster0 rnd0 claimGen rfl rfl (by decide)

/-- Claim C3: the persisted bucket name is stable. A successful pass records the
name it resolved, and the resolver applied to the resulting claim — with any
fresh randomness — reproduces it; moreover, when the status name is set and
no explicit spec name is given, the resolver returns the status name
regardless of how generateBucketName is changed later. -/
theorem bucketName_stable :
    (∀ (t : Transport) (c : Cluster) (rnd1 rnd2 : Nat → Nat) (cl cl1 : Claim),
      c.claim = some cl → cl.deletionTimestampSet = false →
      (reconcile t c rnd1).res = none →
      (reconcile t c rnd1).cluster.claim = some cl1 →
      cl1.status.bucketName = determineBucketName cl rnd1 ∧
      determineBucketName cl1 rnd2 = determineBucketName cl rnd1) ∧
    (∀ (cl : Claim) (g : String) (rnd : Nat → Nat),
      cl.spec.bucketName = "" → cl.status.bucketName ≠ "" →
      determineBucketName { cl with spec := { cl.spec with generateBucketName := g } } rnd
        = cl.status.bucketName) := by
  constructor
  · intro t c rnd1 rnd2 cl cl1 hcl hdel hok hcl1
    obtain ⟨cred, hc, hcc, he, heq⟩ := reconcile_success t c rnd1 cl hcl hdel hok
    rw [heq] at hcl1
    simp only [Option.some.injEq] at hcl1
    subst hcl1
    refine ⟨rfl, ?_⟩
    have hsp : (boundStatus
        (withBucketAnnots (if finalizerName ∈ cl.finalizers then cl else addFin cl)
          (determineBucketName cl rnd1)) (determineBucketName cl rnd1)).spec.bucketName
        = cl.spec.bucketName := by
      split <;> rfl
    have hst : (boundStatus
        (withBucketAnnots (if finalizerName ∈ cl.finalizers then cl else addFin cl)
          (determineBucketName cl rnd1)) (determineBucketName cl rnd1)).status.bucketName
        = determineBucketName cl rnd1 := rfl
    by_cases hb : cl.spec.bucketName = ""
    · rw [determineBucketName_of_status _ rnd2 (hsp.trans hb)
        (by rw [hst]; exact determineBucketName_ne_empty cl rnd1), hst]
    · rw [determineBucketName_of_spec _ rnd2 (by rw [hsp]; exact hb), hsp,
        determineBucketName_of_spec cl rnd1 hb]
  · intro cl g rnd h1 h2
    exact determineBucketName_of_status _ rnd h1 h2

/-- Witness for C3: a second pass with different randomness resolves the same
name the first pass persisted, and a changed prefix does not disturb a
persisted name. -/
theorem bucketName_stable_witness :
    determineBucketName (boundStatus (withBucketAnnots (addFin claimGen) "app-aaaaa") "app-aaaaa")
        (fun _ => 7)
      = determineBucketName claimGen rnd0 ∧
    determineBucketName
        { claimGen with
            spec := { claimGen.spec with generateBucketName := "other" },
            status := { claimGen.status with bucketName := "app-aaaaa" } }
        (fun _ => 7)
      = "app-aaaaa" := by
  constructor
  · exact (bucketName_stable.1 honestT cluster0 rnd0 (fun _ => 7) claimGen
      (boundStatus (withBucketAnnots (addFin claimGen) "app-aaaaa") "app-aaaaa") rfl rfl
      (by decide) (by decide)).2
  · exact bucketName_stable.2
      { claimGen with
          spec := { claimGen.spec with generateBucketName := "other" },
          status := { claimGen.status with bucketName := "app-aaaaa" } }
      "other" (fun _ => 7) rfl (by decide)

/-- Creating a bucket in the honest backend makes it exist. -/
lemma bucketExists_after_create (be : Backend) (b : String) :
    bucketExists (⟨(b, []) :: be.buckets⟩ : Backend) b = true := by
  simp [bucketExists]

/-- Reduction of ensureBucket when the existence probe succeeds. -/
lemma ensureBucket_head_ok (t : Transport) (be : Backend) (b r : String)
    (hh : (t be (S3Req.head b)).err = none) :
    ensureBucket t be b r = ((t be (S3Req.head b)).be, none, [S3Req.head b]) := by
  unfold ensureBucket
  rw [hh]

/-- Reduction of ensureBucket when the existence probe fails. -/
lemma ensureBucket_head_fail (t : Transport) (be : Backend) (b r : String)
    (hh : (t be (S3Req.head b)).err ≠ none) :
    ensureBucket t be b r =
      ((t (t be (S3Req.head b)).be (S3Req.create b r)).be,
        (match (t (t be (S3Req.head b)).be (S3Req.create b r)).err with
          | none => none
          | some m => if alreadyOwnedErr m then none else some m),
        [S3Req.head b, S3Req.create b r]) := by
  unfold ensureBucket
  split
  · next heq => exact absurd heq hh
  · next e heq =>
    split
    · rfl
    · next m heq2 => split <;> rfl

/-- The honest head response: success iff the bucket exists, state unchanged. -/
lemma honestT_head (be : Backend) (b : String) :
    honestT be (S3Req.head b)
      = ⟨be, if bucketExists be b then none else some "NotFound: 404 head bucket", []⟩ := rfl

/-- The honest create response on an absent bucket adds the bucket. -/
lemma honestT_create_absent (be : Backend) (b r : String) (h : ¬bucketExists be b = true) :
    honestT be (S3Req.create b r) = ⟨⟨(b, []) :: be.buckets⟩, none, []⟩ := by
  show (if bucketExists be b then _ else _ : S3Out) = _
  rw [if_neg h]

/-- Against the honest backend, ensuring a bucket makes it exist afterwards. -/
lemma bucketExists_after_ensure (be : Backend) (b r : String) :
    bucketExists (ensureBucket honestT be b r).1 b = true := by
  by_cases h : bucketExists be b
  · rw [ensureBucket_head_ok honestT be b r (by rw [honestT_head, if_pos h])]
    exact h
  · rw [ensureBucket_head_fail honestT be b r (by rw [honestT_head, if_neg h]; simp)]
    have hbe : (honestT be (S3Req.head b)).be = be := rfl
    rw [hbe, honestT_create_absent be b r h]
    exact bucketExists_after_create be b

/-- Claim C4: ensureBucket probes existence first and returns success without a
create when the bucket exists; when the probe fails it issues a create,
swallowing already-owned/already-exists create errors and returning every
other create error; hence a second call on the same name never errors. -/
theorem ensureBucket_idempotent_spec :
    (∀ (be : Backend) (b r : String), bucketExists be b = true →
      ensureBucket honestT be b r = (be, none, [S3Req.head b])) ∧
    (∀ (t : Transport) (be : Backend) (b r m : String),
      (t be (S3Req.head b)).err ≠ none →
      (t (t be (S3Req.head b)).be (S3Req.create b r)).err = some m →
      (ensureBucket t be b r).2.1 = (if alreadyOwnedErr m then none else some m) ∧
      (ensureBucket t be b r).2.2 = [S3Req.head b, S3Req.create b r]) ∧
    (∀ (t : Transport) (be : Backend) (b r : String),
      (t be (S3Req.head b)).err ≠ none →
      (t (t be (S3Req.head b)).be (S3Req.create b r)).err = none →
      (ensureBucket t be b r).2.1 = none ∧
      (ensureBucket t be b r).2.2 = [S3Req.head b, S3Req.create b r]) ∧
    (∀ (be : Backend) (b r : String),
      (ensureBucket honestT (ensureBucket honestT be b r).1 b r).2.1 = none) := by
  refine ⟨?_, ?_, ?_, ?_⟩
  · intro be b r h
    rw [ensureBucket_head_ok honestT be b r (by rw [honestT_head, if_pos h])]
    rfl
  · intro t be b r m hh hc
    rw [ensureBucket_head_fail t be b r hh]
    rw [hc]
    exact ⟨rfl, rfl⟩
  · intro t be b r hh hc
    rw [ensureBucket_head_fail t be b r hh]
    rw [hc]
    exact ⟨rfl, rfl⟩
  · intro be b r
    have h2 : bucketExists (ensureBucket honestT be b r).1 b = true :=
      bucketExists_after_ensure be b r
    rw [ensureBucket_head_ok honestT (ensureBucket honestT be b r).1 b r
      (by rw [honestT_head, if_pos h2])]

/-- Witness for C4: on an existing bucket the probe short-circuits, and an
already-exists-class create failure is swallowed. -/
theorem ensureBucket_idempotent_spec_witness :
    ensureBucket honestT ⟨[("data", [])]⟩ "data" "us-east-1"
      = (⟨[("data", [])]⟩, none, [S3Req.head "data"]) ∧
    (ensureBucket honestT (ensureBucket honestT ⟨[]⟩ "data" "us-east-1").1 "data" "us-east-1").2.1
      = none :=
  ⟨ensureBucket_idempotent_spec.1 ⟨[("data", [])]⟩ "data" "us-east-1" (by decide),
    ensureBucket_idempotent_spec.2.2.2 ⟨[]⟩ "data" "us-east-1"⟩

/-- Claim C9: a reconcile request whose claim is gone returns success and performs
no side effects at all: the cluster is unchanged and the trace is empty. -/
theorem reconcile_absent_claim_noop (t : Transport) (c : Cluster) (rnd : Nat → Nat)
    (h : c.claim = none) : reconcile t c rnd = ⟨c, none, []⟩ := by
  unfold reconcile
  split
  · rfl
  · next cl heq => rw [h] at heq; simp at heq

/-- Witness for C9 on a concrete claimless cluster. -/
theorem reconcile_absent_claim_noop_witness :
    reconcile honestT ⟨none, [credSec0], [], ⟨[]⟩, none⟩ rnd0
      = ⟨⟨none, [credSec0], [], ⟨[]⟩, none⟩, none, []⟩ :=
  reconcile_absent_claim_noop honestT ⟨none, [credSec0], [], ⟨[]⟩, none⟩ rnd0 rfl

/-- Claim C10: with the deletion flag set but the finalizer token absent, the
deletion handler is a pure no-op that returns success: no backend call, no
store write, the cluster unchanged. -/
theorem handleDeletion_no_finalizer_noop (t : Transport) (c : Cluster) (cl : Claim)
    (hdel : cl.deletionTimestampSet = true) (hf : finalizerName ∉ cl.finalizers) :
    handleDeletion t c cl = ⟨c, none, []⟩ := by
  unfold handleDeletion
  rw [if_neg hf]

/-- Claim used by deletion witnesses: deletion flag set, no finalizer. -/
def claimDelNoFin : Claim :=
  ⟨"d", "ns", [], [], true, ⟨"", "app", "", "Delete"⟩, ⟨"Bound", "app-xyz12", "", ""⟩⟩

/-- Witness for C10 on a concrete deleting claim without the finalizer. -/
theorem handleDeletion_no_finalizer_noop_witness :
    handleDeletion honestT cluster0 claimDelNoFin = ⟨cluster0, none, []⟩ :=
  handleDeletion_no_finalizer_noop honestT cluster0 claimDelNoFin rfl (by decide)

/-- Reduction of deleteBucket when the initial listing fails: the listing
error is wrapped and returned — there is no not-found handling here. -/
lemma deleteBucket_list_fail (t : Transport) (be : Backend) (b e : String)
    (h : (t be (S3Req.listV2 b)).err = some e) :
    deleteBucket t be b
      = ((t be (S3Req.listV2 b)).be, some ("failed to list objects: " ++ e), [S3Req.listV2 b]) := by
  unfold deleteBucket
  rw [h]

/-- Reduction of deleteBucket when the listing succeeds with no keys: only
the final bucket-delete call decides the outcome, and a NoSuchBucket error
there is swallowed. -/
lemma deleteBucket_list_ok_empty (t : Transport) (be : Backend) (b : String)
    (hlist : (t be (S3Req.listV2 b)).err = none)
    (hkeys : (t be (S3Req.listV2 b)).keys = []) :
    deleteBucket t be b
      = ((t (t be (S3Req.listV2 b)).be (S3Req.delBkt b)).be,
          (match (t (t be (S3Req.listV2 b)).be (S3Req.delBkt b)).err with
            | none => none
            | some e =>
                if strContains (String.map Char.toLower e) "nosuchbucket" then none
                else some ("failed to delete bucket: " ++ e)),
          [S3Req.listV2 b, S3Req.delBkt b]) := by
  unfold deleteBucket
  split
  · next e heq => rw [hlist] at heq; cases heq
  · rw [hkeys]
    split
    · next e heq => simp [deleteObjectsLoop] at heq
    · simp only [deleteObjectsLoop]
      split
      · rfl
      · next e heq => split <;> rfl

/-- The honest listing response on an absent bucket is a NoSuchBucket error. -/
lemma honestT_listV2_absent (be : Backend) (b : String) (h : bucketExists be b = false) :
    honestT be (S3Req.listV2 b)
      = ⟨be, some "NoSuchBucket: the specified bucket does not exist", []⟩ := by
  have hf : be.buckets.find? (fun p => p.1 == b) = none := by
    rw [List.find?_eq_none]
    intro x hx
    unfold bucketExists at h
    rw [List.any_eq_false] at h
    exact h x hx
  show (match be.buckets.find? (fun p => p.1 == b) with
    | none => (⟨be, some "NoSuchBucket: the specified bucket does not exist", []⟩ : S3Out)
    | some p => ⟨be, none, p.2⟩) = _
  rw [hf]

/-- Counterexample to C6: emptying and deleting the three-object bucket
succeeds, but calling deleteBucket again on the now-absent bucket returns the
wrapped NoSuchBucket listing error instead of succeeding as a no-op. -/
theorem deleteBucket_absent_errors :
    (deleteBucket honestT ⟨[("data", ["k1", "k2", "k3"])]⟩ "data").2.1 = none ∧
    (deleteBucket honestT (deleteBucket honestT ⟨[("data", ["k1", "k2", "k3"])]⟩ "data").1
        "data").2.1
      = some ("failed to list objects: NoSuchBucket: the specified bucket does not exist") := by
  constructor
  · decide
  · decide

/-- Claim C6 as amended: deleteBucket treats a not-found error as success only when it
arises at the final bucket-delete call; on an already-absent bucket the
initial listing fails with the backend's not-found error, which is wrapped
and returned as an error. -/
theorem deleteBucket_notfound_behavior :
    (∀ (be : Backend) (b : String), bucketExists be b = false →
      (deleteBucket honestT be b).2.1
        = some ("failed to list objects: NoSuchBucket: the specified bucket does not exist")) ∧
    (∀ (t : Transport) (be : Backend) (b e : String),
      (t be (S3Req.listV2 b)).err = none → (t be (S3Req.listV2 b)).keys = [] →
      (t (t be (S3Req.listV2 b)).be (S3Req.delBkt b)).err = some e →
      strContains (String.map Char.toLower e) "nosuchbucket" = true →
      (deleteBucket t be b).2.1 = none) := by
  constructor
  · intro be b h
    rw [deleteBucket_list_fail honestT be b
      "NoSuchBucket: the specified bucket does not exist"
      (by rw [honestT_listV2_absent be b h])]
    rfl
  · intro t be b e hlist hkeys hdel hcls
    rw [deleteBucket_list_ok_empty t be b hlist hkeys]
    show (match (t (t be (S3Req.listV2 b)).be (S3Req.delBkt b)).err with
      | none => none
      | some e =>
          if strContains (String.map Char.toLower e) "nosuchbucket" then none
          else some ("failed to delete bucket: " ++ e)) = none
    rw [hdel]
    show (if strContains (String.map Char.toLower e) "nosuchbucket" then none
      else some ("failed to delete bucket: " ++ e)) = none
    rw [if_pos hcls]

/-- Witness for the amended C6 on a concrete absent bucket. -/
theorem deleteBucket_notfound_behavior_witness :
    (deleteBucket honestT ⟨[]⟩ "data").2.1
      = some ("failed to list objects: NoSuchBucket: the specified bucket does not exist") :=
  deleteBucket_notfound_behavior.1 ⟨[]⟩ "data" (by decide)

/-- The bucket a request addresses. -/
def reqBucket : S3Req → String
  | .head b => b
  | .create b _ => b
  | .listV2 b => b
  | .delObj b _ => b
  | .delBkt b => b

/-- Every request the object-deletion loop issues targets the given bucket. -/
lemma deleteObjectsLoop_reqs (t : Transport) (b : String) :
    ∀ (ks : List String) (be : Backend),
      ∀ q ∈ (deleteObjectsLoop t be b ks).2.2, reqBucket q = b := by
  intro ks
  induction ks with
  | nil => intro be q hq; simp [deleteObjectsLoop] at hq
  | cons k ks ih =>
    intro be q hq
    unfold deleteObjectsLoop at hq
    split at hq
    · simp at hq
      subst hq
      rfl
    · rcases List.mem_cons.mp hq with hq1 | hq2
      · subst hq1; rfl
      · exact ih _ q hq2

/-- Every request deleteBucket issues targets the given bucket. -/
lemma deleteBucket_reqs (t : Transport) (be : Backend) (b : String) :
    ∀ q ∈ (deleteBucket t be b).2.2, reqBucket q = b := by
  intro q hq
  unfold deleteBucket at hq
  split at hq
  · simp at hq
    subst hq
    rfl
  · split at hq
    · rcases List.mem_cons.mp hq with hq1 | hq2
      · subst hq1; rfl
      · exact deleteObjectsLoop_reqs t b _ _ q hq2
    · split at hq
      · rcases List.mem_cons.mp hq with hq1 | hq2
        · subst hq1; rfl
        · rcases List.mem_append.mp hq2 with hq3 | hq4
          · exact deleteObjectsLoop_reqs t b _ _ q hq3
          · simp at hq4; subst hq4; rfl
      · split at hq
        · rcases List.mem_cons.mp hq with hq1 | hq2
          · subst hq1; rfl
          · rcases List.mem_append.mp hq2 with hq3 | hq4
            · exact deleteObjectsLoop_reqs t b _ _ q hq3
            · simp at hq4; subst hq4; rfl
        · rcases List.mem_cons.mp hq with hq1 | hq2
          · subst hq1; rfl
          · rcases List.mem_append.mp hq2 with hq3 | hq4
            · exact deleteObjectsLoop_reqs t b _ _ q hq3
            · simp at hq4; subst hq4; rfl

/-- Claim C5: with deletion requested and the finalizer present, the handler
returns success and always removes and persists the finalizer — whatever the
transport, credential store, or client environment do; a backend
bucket-delete request is issued only under retainPolicy Delete with a
recoverable name (annotation first, status fallback) and only against that
recovered name; under any other policy no backend request is made at all. -/
theorem handleDeletion_cleanup_spec (t : Transport) (c : Cluster) (cl : Claim)
    (hdel : cl.deletionTimestampSet = true) (hf : finalizerName ∈ cl.finalizers) :
    (handleDeletion t c cl).res = none ∧
    (handleDeletion t c cl).cluster.claim = some (removeFin cl) ∧
    finalizerName ∉ (removeFin cl).finalizers ∧
    (handleDeletion t c cl).trace.getLast? = some Ev.finalizerRemoveUpdate ∧
    (∀ b, Ev.s3 (S3Req.delBkt b) ∈ (handleDeletion t c cl).trace →
      cl.spec.retainPolicy = "Delete" ∧ recoveredBucketName cl ≠ "" ∧
      b = recoveredBucketName cl) ∧
    (cl.spec.retainPolicy ≠ "Delete" → ∀ q, Ev.s3 q ∉ (handleDeletion t c cl).trace) := by
  unfold handleDeletion
  rw [if_pos hf]
  refine ⟨rfl, rfl, ?_, ?_, ?_, ?_⟩
  · simp [removeFin, List.mem_filter]
  · simp
  · intro b hb
    rcases List.mem_append.mp hb with hb1 | hb2
    swap
    · simp at hb2
    unfold deletionCleanup at hb1
    split at hb1
    swap
    · simp at hb1
    next hrp =>
    split at hb1
    · simp at hb1
    next hbn =>
    split at hb1
    · simp at hb1
    split at hb1
    · simp at hb1
    refine ⟨hrp, hbn, ?_⟩
    rcases List.mem_cons.mp hb1 with hb3 | hb4
    · cases hb3
    · obtain ⟨q, hq, hqe⟩ := List.mem_map.mp hb4
      have hq2 : q = S3Req.delBkt b := by
        cases hqe
        rfl
      subst hq2
      exact deleteBucket_reqs t c.backend (recoveredBucketName cl) _ hq
  · intro hrp q hq
    unfold deletionCleanup at hq
    rw [if_neg hrp] at hq
    simp at hq

/-- Claim used by the C5 witness: deleting, finalizer present, policy
Delete, name recoverable from the annotation. -/
def claimDelFin : Claim :=
  ⟨"d", "ns", [("quobject.io/bucket-name", "app-xyz12")], ["quobject.io/finalizer"], true,
    ⟨"", "app", "", "Delete"⟩, ⟨"Bound", "app-xyz12", "", ""⟩⟩

/-- Cluster used by the C5 witness. -/
def clusterDel : Cluster :=
  ⟨some claimDelFin, [credSec0], [], ⟨[("app-xyz12", ["k1"])]⟩, none⟩

/-- Witness for C5 on a concrete deleting claim. -/
theorem handleDeletion_cleanup_spec_witness :
    (handleDeletion honestT clusterDel claimDelFin).res = none ∧
    (handleDeletion honestT clusterDel claimDelFin).cluster.claim
      = some (removeFin claimDelFin) ∧
    finalizerName ∉ (removeFin claimDelFin).finalizers ∧
    (handleDeletion honestT clusterDel claimDelFin).trace.getLast?
      = some Ev.finalizerRemoveUpdate ∧
    (∀ b, Ev.s3 (S3Req.delBkt b) ∈ (handleDeletion honestT clusterDel claimDelFin).trace →
      claimDelFin.spec.retainPolicy = "Delete" ∧ recoveredBucketName claimDelFin ≠ "" ∧
      b = recoveredBucketName claimDelFin) ∧
    (claimDelFin.spec.retainPolicy ≠ "Delete" →
      ∀ q, Ev.s3 q ∉ (handleDeletion honestT clusterDel claimDelFin).trace) :=
  handleDeletion_cleanup_spec honestT clusterDel claimDelFin rfl (by decide)

/-- Shape of the requests one ensure step issues: the probe alone, or the
probe followed by the create. -/
lemma ensureBucket_reqs_shape (t : Transport) (be : Backend) (b r : String) :
    (ensureBucket t be b r).2.2 = [S3Req.head b] ∨
    (ensureBucket t be b r).2.2 = [S3Req.head b, S3Req.create b r] := by
  unfold ensureBucket
  split
  · exact Or.inl rfl
  · split
    · exact Or.inr rfl
    · split
      · exact Or.inr rfl
      · exact Or.inr rfl

/-- Claim C7: a claim observed without the finalizer and not deleting has the
finalizer attach-and-persist as the very first action of the pass, before
any credential fetch, backend call or artifact write; and a successful pass
orders the steps finalizer-add, credential fetch, annotation write,
bucket-ensure requests, secret upsert, config-map upsert, status Bound. -/
theorem finalizer_first_ordering (t : Transport) (c : Cluster) (rnd : Nat → Nat) (cl : Claim)
    (hcl : c.claim = some cl) (hdel : cl.deletionTimestampSet = false)
    (hf : finalizerName ∉ cl.finalizers) :
    (reconcile t c rnd).trace.head? = some Ev.finalizerAddUpdate ∧
    ((reconcile t c rnd).res = none →
      ∃ reqs, (reconcile t c rnd).trace
          = [Ev.finalizerAddUpdate, Ev.credFetch, Ev.annotUpdate] ++ reqs.map Ev.s3
            ++ [Ev.writeSecret (cl.name ++ "-bucket-secret"),
                Ev.writeConfigMap (cl.name ++ "-bucket-config"), Ev.statusUpdate "Bound"] ∧
        (reqs = [S3Req.head (determineBucketName cl rnd)] ∨
          ∃ r, reqs = [S3Req.head (determineBucketName cl rnd),
            S3Req.create (determineBucketName cl rnd) r])) := by
  constructor
  · rw [reconcile_live t c rnd cl hcl hdel, if_neg hf]
    rfl
  · intro hok
    obtain ⟨cred, hc, hcc, he, heq⟩ := reconcile_success t c rnd cl hcl hdel hok
    rw [heq]
    refine ⟨(ensureBucket t c.backend (determineBucketName cl rnd)
      (lookupD cred.data "region")).2.2, ?_, ?_⟩
    · simp [hf]
    · rcases ensureBucket_reqs_shape t c.backend (determineBucketName cl rnd)
        (lookupD cred.data "region") with h1 | h2
      · exact Or.inl h1
      · exact Or.inr ⟨lookupD cred.data "region", h2⟩

/-- Witness for C7 at the scenario claim. -/
theorem finalizer_first_ordering_witness :
    (reconcile honestT cluster0 rnd0).trace.head? = some Ev.finalizerAddUpdate ∧
    ((reconcile honestT cluster0 rnd0).res = none →
      ∃ reqs, (reconcile honestT cluster0 rnd0).trace
          = [Ev.finalizerAddUpdate, Ev.credFetch, Ev.annotUpdate] ++ reqs.map Ev.s3
            ++ [Ev.writeSecret (claimGen.name ++ "-bucket-secret"),
                Ev.writeConfigMap (claimGen.name ++ "-bucket-config"),
                Ev.statusUpdate "Bound"] ∧
        (reqs = [S3Req.head (determineBucketName claimGen rnd0)] ∨
          ∃ r, reqs = [S3Req.head (determineBucketName claimGen rnd0),
            S3Req.create (determineBucketName claimGen rnd0) r])) :=
  finalizer_first_ordering honestT cluster0 rnd0 claimGen rfl rfl (by decide)

/-- Credential data carrying the documented TLS fields, which the code never
reads. -/
def credDataBad : List (String × String) :=
  [("endpoint", "minio.local"), ("region", "us-east-1"), ("accessKey", "AK"),
    ("secretKey", "SK"), ("useSSL", "false"), ("insecureSkipVerify", "true")]

/-- Claim C8 evaluation: the client configuration the reconcile pass builds always
has certificate verification on (InsecureSkipVerify hard-coded to false) and
is independent of the secret's useSSL and insecureSkipVerify fields — even
when the secret explicitly sets insecureSkipVerify to true — and the useSSL
argument of newS3Client has no effect on the configuration at all. -/
theorem newS3Client_ignores_tls_fields :
    (∀ (e r a s : String) (u f : Bool),
      (newS3Client e r a s u f).insecureSkipVerifyFlag = false ∧
      newS3Client e r a s u f = newS3Client e r a s (!u) f) ∧
    (∀ d, (reconcileClientCfg d).insecureSkipVerifyFlag = false) ∧
    lookupD credDataBad "insecureSkipVerify" = "true" ∧
    lookupD credDataBad "useSSL" = "false" ∧
    (reconcileClientCfg credDataBad).insecureSkipVerifyFlag = false := by
  exact ⟨fun e r a s u f => ⟨rfl, rfl⟩, fun d => rfl, by decide, by decide, rfl⟩

end QuObject
